import Mathlib

/-!
# Shallow embedding of the real-time messaging and presence layer

This file models the chat/presence core of the doctor-patient portal:

* the in-memory persistent store (`MemStorage` in
  `server/ml/heart_disease_model.ts`): users, messages, conversations,
  with the id counters and the conversation-ensure logic of
  `createMessage`;
* the WebSocket connection registry, online-set and
  `broadcastOnlineStatus` sweep of `server/routes.ts`;
* the socket `register`, `close` and `chat_message` handlers;
* the REST handlers for `GET /api/conversations/:id/messages`,
  `POST /api/messages`, `DELETE /api/conversations/:id`,
  `PATCH /api/messages/:id`, `DELETE /api/messages/:id`;
* the client reconnect backoff of the chat page.

JavaScript `Map`s keyed by id are modelled as association lists with
`Map.set` replacing in place (preserving insertion order) and appending
fresh keys, which matches V8 iteration order.  `new Date()` is modelled
as an explicit `now : Int` argument to every operation that reads the
clock.  Socket handles are identified by a `Nat` connection id, and the
ambient transport state is a function `env : Nat → Nat` giving each
connection's `readyState` (the code compares against `WebSocket.OPEN`,
which is `1`).
-/

namespace Portal

/-- User roles, the `role` column of the `users` table
(`"doctor" | "patient"` strings in the code). -/
inductive Role where
  | doctor
  | patient
deriving DecidableEq, Repr

/-- Message delivery status (`message_status` enum: sent/delivered/read). -/
inductive MessageStatus where
  | sent
  | delivered
  | read
deriving DecidableEq, Repr

/-- Projection of a `User` row to the fields the messaging layer reads
(`id` and `role`; display attributes are never consulted by the modelled
code paths). -/
structure User where
  id : Int
  role : Role
deriving DecidableEq, Repr

/-- A `Message` row. `imageData` is nullable; `sentAt` is a timestamp. -/
structure Message where
  id : Int
  fromUserId : Int
  toUserId : Int
  content : String
  imageData : Option String
  status : MessageStatus
  sentAt : Int
deriving DecidableEq, Repr

/-- A `Conversation` row: doctor/patient pairing with activity timestamps. -/
structure Conversation where
  id : Int
  doctorId : Int
  patientId : Int
  lastMessageAt : Int
  createdAt : Int
deriving DecidableEq, Repr

/-- Payload accepted by `createMessage` (the `InsertMessage` shape:
`insertMessageSchema` omits only `id` and `sentAt`, so `status` may be
supplied by the caller and defaults to `"sent"` in the store). -/
structure InsertMessage where
  fromUserId : Int
  toUserId : Int
  content : String
  imageData : Option String
  status : Option MessageStatus
deriving DecidableEq, Repr

/-- Payload accepted by `createConversation`. -/
structure InsertConversation where
  doctorId : Int
  patientId : Int
deriving DecidableEq, Repr

/-- The in-memory store (`MemStorage`): the three maps the messaging layer
touches, each keyed by id, plus the running id counters. -/
structure Storage where
  users : List User
  messages : List Message
  conversations : List Conversation
  currentMessageId : Int
  currentConversationId : Int
deriving DecidableEq, Repr

namespace Storage

/-- `MemStorage.getUser`: `this.users.get(id)`. -/
def getUser (s : Storage) (id : Int) : Option User :=
  s.users.find? (fun u => u.id == id)

/-- `MemStorage.getDoctors`: all users whose role is `"doctor"`. -/
def getDoctors (s : Storage) : List User :=
  s.users.filter (fun u => u.role == .doctor)

/-- `MemStorage.getMessage`: `this.messages.get(id)`. -/
def getMessage (s : Storage) (id : Int) : Option Message :=
  s.messages.find? (fun m => m.id == id)

/-- `Map.set` on the messages map: replace in place when the key exists,
append otherwise. -/
def setMessage (l : List Message) (m : Message) : List Message :=
  if l.any (fun x => x.id == m.id) then
    l.map (fun x => if x.id == m.id then m else x)
  else l ++ [m]

/-- `Map.set` on the conversations map. -/
def setConversation (l : List Conversation) (c : Conversation) :
    List Conversation :=
  if l.any (fun x => x.id == c.id) then
    l.map (fun x => if x.id == c.id then c else x)
  else l ++ [c]

/-- `MemStorage.getConversation`. -/
def getConversation (s : Storage) (id : Int) : Option Conversation :=
  s.conversations.find? (fun c => c.id == id)

/-- `MemStorage.getConversationByUsers(doctorId, patientId)`: first
conversation whose `doctorId` and `patientId` columns equal the arguments
exactly (no unordered-pair matching). -/
def getConversationByUsers (s : Storage) (doctorId patientId : Int) :
    Option Conversation :=
  s.conversations.find?
    (fun c => c.doctorId == doctorId && c.patientId == patientId)

/-- `MemStorage.createConversation`: fresh id from the counter, both
timestamps set to now, row appended. -/
def createConversation (now : Int) (s : Storage) (ic : InsertConversation) :
    Storage × Conversation :=
  let id := s.currentConversationId
  let c : Conversation :=
    { id := id, doctorId := ic.doctorId, patientId := ic.patientId
      lastMessageAt := now, createdAt := now }
  ({ s with conversations := setConversation s.conversations c
            currentConversationId := id + 1 }, c)

/-- `MemStorage.updateConversationLastMessage`. -/
def updateConversationLastMessage (s : Storage) (id : Int) (timestamp : Int) :
    Storage × Option Conversation :=
  match s.conversations.find? (fun c => c.id == id) with
  | none => (s, none)
  | some c =>
    let c' := { c with lastMessageAt := timestamp }
    ({ s with conversations := setConversation s.conversations c' }, some c')

/-- `MemStorage.createMessage`: appends the message (status defaulting to
`"sent"`, `sentAt := now`), then ensures a conversation: it looks the pair
up with `getConversationByUsers(min(from,to), max(from,to))` — i.e. the
smaller id in the `doctorId` slot — updates its `lastMessageAt` when found,
and otherwise creates a conversation whose doctor/patient columns are
assigned by each user's stored role. -/
def createMessage (now : Int) (s : Storage) (im : InsertMessage) :
    Storage × Message :=
  let id := s.currentMessageId
  let st := im.status.getD .sent
  let msg : Message :=
    { id := id, fromUserId := im.fromUserId, toUserId := im.toUserId
      content := im.content, imageData := im.imageData
      status := st, sentAt := now }
  let s1 : Storage :=
    { s with messages := setMessage s.messages msg
             currentMessageId := id + 1 }
  let s2 : Storage :=
    match getConversationByUsers s1 (min im.fromUserId im.toUserId)
        (max im.fromUserId im.toUserId) with
    | some conv =>
      (updateConversationLastMessage s1 conv.id now).1
    | none =>
      match getUser s1 im.fromUserId, getUser s1 im.toUserId with
      | some fromUser, some toUser =>
        let doctorId := if fromUser.role == .doctor then fromUser.id else toUser.id
        let patientId := if fromUser.role == .patient then fromUser.id else toUser.id
        (createConversation now s1 ⟨doctorId, patientId⟩).1
      | _, _ => s1
  (s2, msg)

/-- Stable ascending insertion by `sentAt` (the comparator
`(a, b) => a.sentAt.getTime() - b.sentAt.getTime()` under V8's stable
sort). -/
def insertBySentAt (m : Message) : List Message → List Message
  | [] => [m]
  | x :: xs =>
    if x.sentAt ≤ m.sentAt then x :: insertBySentAt m xs
    else m :: x :: xs

/-- Stable sort by `sentAt` ascending. -/
def sortBySentAt (l : List Message) : List Message :=
  l.foldl (fun acc m => insertBySentAt m acc) []

/-- `MemStorage.getMessagesBetweenUsers`: messages exchanged between the
two ids in either direction, sorted ascending by `sentAt`. -/
def getMessagesBetweenUsers (s : Storage) (fromUserId toUserId : Int) :
    List Message :=
  sortBySentAt (s.messages.filter (fun m =>
    (m.fromUserId == fromUserId && m.toUserId == toUserId) ||
    (m.fromUserId == toUserId && m.toUserId == fromUserId)))

/-- `MemStorage.getMessagesByConversation`: resolves the conversation and
returns the messages between its doctor and patient. -/
def getMessagesByConversation (s : Storage) (conversationId : Int) :
    List Message :=
  match getConversation s conversationId with
  | none => []
  | some conv => getMessagesBetweenUsers s conv.doctorId conv.patientId

/-- `MemStorage.updateMessageStatus`: replace only the status field of the
row with the given id. -/
def updateMessageStatus (s : Storage) (id : Int) (st : MessageStatus) :
    Storage × Option Message :=
  match s.messages.find? (fun m => m.id == id) with
  | none => (s, none)
  | some m =>
    let m' := { m with status := st }
    ({ s with messages := setMessage s.messages m' }, some m')

/-- `MemStorage.updateMessage`: replace only the content field. -/
def updateMessage (s : Storage) (id : Int) (content : String) :
    Storage × Option Message :=
  match s.messages.find? (fun m => m.id == id) with
  | none => (s, none)
  | some m =>
    let m' := { m with content := content }
    ({ s with messages := setMessage s.messages m' }, some m')

/-- `MemStorage.deleteMessage`. -/
def deleteMessage (s : Storage) (id : Int) : Storage × Bool :=
  if s.messages.any (fun m => m.id == id) then
    ({ s with messages := s.messages.filter (fun m => !(m.id == id)) }, true)
  else (s, false)

/-- `MemStorage.deleteConversation`: participant check, then delete every
message between the pair and finally the conversation row. -/
def deleteConversation (s : Storage) (id : Int) (userId : Int) :
    Storage × Bool :=
  match s.conversations.find? (fun c => c.id == id) with
  | none => (s, false)
  | some conv =>
    if conv.doctorId ≠ userId ∧ conv.patientId ≠ userId then (s, false)
    else
      let s1 : Storage :=
        { s with messages := s.messages.filter (fun m =>
            !((m.fromUserId == conv.doctorId && m.toUserId == conv.patientId) ||
              (m.fromUserId == conv.patientId && m.toUserId == conv.doctorId))) }
      ({ s1 with conversations :=
           s1.conversations.filter (fun c => !(c.id == id)) }, true)

end Storage

/-! ## Connection registry, online-set and presence broadcast -/

/-- `WebSocket.OPEN` is `1`; a connection environment maps each connection
id to its current `readyState`. -/
def wsOPEN : Nat := 1

/-- The socket-server state: `clients` (the `Map<number, WebSocket>` from
user id to connection) and `onlineUsers` (the `Set<number>`), both in
insertion order. -/
structure Registry where
  clients : List (Int × Nat)
  onlineUsers : List Int
deriving DecidableEq, Repr

namespace Registry

/-- `Map.set` on `clients`. -/
def setClient (l : List (Int × Nat)) (u : Int) (c : Nat) : List (Int × Nat) :=
  if l.any (fun p => p.1 == u) then
    l.map (fun p => if p.1 == u then (u, c) else p)
  else l ++ [(u, c)]

/-- `Map.get` on `clients`. -/
def lookupClient (r : Registry) (u : Int) : Option Nat :=
  (r.clients.find? (fun p => p.1 == u)).map (fun p => p.2)

/-- `Set.add` on `onlineUsers`. -/
def addOnline (l : List Int) (u : Int) : List Int :=
  if l.any (fun v => v == u) then l else l ++ [u]

/-- The eviction pass of `broadcastOnlineStatus` as it acts on the
online-set: walking the `clients` entries in order, every entry whose
connection is not `OPEN` has its user removed from the online-set. -/
def sweepOnline (env : Nat → Nat) : List (Int × Nat) → List Int → List Int
  | [], online => online
  | p :: rest, online =>
    if env p.2 == wsOPEN then sweepOnline env rest online
    else sweepOnline env rest (online.filter (fun v => !(v == p.1)))

/-- The send pass of `broadcastOnlineStatus`: each surviving entry whose
connection is still `OPEN` is sent the payload list; the result records
which connection received which `onlineUsers` list. -/
def sendAll (env : Nat → Nat) (payload : List Int) :
    List (Int × Nat) → List (Nat × List Int)
  | [] => []
  | p :: rest =>
    if env p.2 == wsOPEN then (p.2, payload) :: sendAll env payload rest
    else sendAll env payload rest

/-- Result of a presence broadcast: the registry after eviction, and the
`online_status` sends performed (connection id, `onlineUsers` payload). -/
structure BroadcastResult where
  registry : Registry
  sends : List (Nat × List Int)
deriving DecidableEq, Repr

/-- `broadcastOnlineStatus`: snapshots `Array.from(onlineUsers)` first,
then sweeps the registry evicting every entry whose connection is not
`OPEN` (from both `clients` and `onlineUsers`), then sends the snapshot
to every remaining open connection. -/
def broadcastOnlineStatus (env : Nat → Nat) (r : Registry) : BroadcastResult :=
  let onlineUsersList := r.onlineUsers
  let clients' := r.clients.filter (fun p => env p.2 == wsOPEN)
  let online' := sweepOnline env r.clients r.onlineUsers
  { registry := { clients := clients', onlineUsers := online' }
    sends := sendAll env onlineUsersList clients' }

/-- The socket `register` handler: for a truthy (non-zero) user id, insert
the connection into `clients`, add the user to `onlineUsers` and broadcast
presence; a zero id leaves everything untouched (the `if (userId)` guard). -/
def registerHandler (env : Nat → Nat) (r : Registry) (u : Int) (c : Nat) :
    BroadcastResult :=
  if u == 0 then { registry := r, sends := [] }
  else
    broadcastOnlineStatus env
      { clients := setClient r.clients u c
        onlineUsers := addOnline r.onlineUsers u }

/-- The socket `close` handler of a connection whose handler-scope `userId`
is `u`: for a truthy id, delete `clients[u]` and `onlineUsers[u]` and
broadcast presence (the second registered close listener only repeats the
`clients` delete). -/
def closeHandler (env : Nat → Nat) (r : Registry) (u : Int) :
    BroadcastResult :=
  if u == 0 then { registry := r, sends := [] }
  else
    broadcastOnlineStatus env
      { clients := r.clients.filter (fun p => !(p.1 == u))
        onlineUsers := r.onlineUsers.filter (fun v => !(v == u)) }

end Registry

/-! ## The socket `chat_message` handler -/

/-- A `chat_message` event received over the socket. -/
structure ChatEvent where
  fromUserId : Int
  toUserId : Int
  content : String
  imageData : Option String
deriving DecidableEq, Repr

/-- A `chat_message` push sent to a connection. `hasStatusTag` records
whether the payload carried the extra `status: "delivered"` field (the
sender/originating-socket confirmations do, the recipient push does not). -/
structure Push where
  conn : Nat
  message : Message
  hasStatusTag : Bool
deriving DecidableEq, Repr

/-- Result of handling one `chat_message` event: the store, the registry,
the connection's handler-scope `userId` variable, and the pushes sent. -/
structure ChatResult where
  store : Storage
  registry : Registry
  wsUser : Option Int
  pushes : List Push
deriving Repr

open Storage in
/-- Step 2 of the `chat_message` handler, recipient resolution: a user
sending to themselves is treated as a client bug; when the sender's role
is `patient`, the recipient is redirected to the first stored doctor when
any exists (the doctor-sender case aborts before this point). -/
def chatActualTo (s : Storage) (d : ChatEvent) : Int :=
  if d.fromUserId == d.toUserId then
    match s.getDoctors with
    | [] => d.toUserId
    | doc :: _ => doc.id
  else d.toUserId

open Registry in
/-- The late-registration side effect of the `chat_message` handler
(`if (!userId && data.fromUserId)`): a connection without a truthy
handler-scope `userId` is registered under the event's `fromUserId`, the
user is added to the online-set and presence is broadcast. -/
def chatRegStep (env : Nat → Nat) (reg : Registry) (origin : Nat)
    (wsUser : Option Int) (fromId : Int) : Registry × Option Int :=
  if (wsUser.getD 0 == 0) && !(fromId == 0) then
    ((broadcastOnlineStatus env
        { clients := setClient reg.clients fromId origin
          onlineUsers := addOnline reg.onlineUsers fromId }).registry,
     some fromId)
  else (reg, wsUser)

open Storage in
/-- The handler-level conversation-ensure block of the `chat_message`
handler: look the pair up by `(min, max)` of the actual ids, update
`lastMessageAt` when found, else re-resolve the event's *original* users
and create a conversation with role-assigned columns; `none` models the
early `return` when either user vanished. -/
def chatConvStep (now : Int) (s1 : Storage) (d : ChatEvent)
    (actualFromUserId actualToUserId : Int) : Option Storage :=
  match s1.getConversationByUsers
      (min actualFromUserId actualToUserId)
      (max actualFromUserId actualToUserId) with
  | some conv =>
    some (s1.updateConversationLastMessage conv.id now).1
  | none =>
    match s1.getUser d.fromUserId, s1.getUser d.toUserId with
    | some fu, some tu =>
      let doctorId := if fu.role == .doctor then fu.id else tu.id
      let patientId := if fu.role == .patient then fu.id else tu.id
      some (createConversation now s1 ⟨doctorId, patientId⟩).1
    | _, _ => none

/-- The fan-out block of the `chat_message` handler: the delivered message
to the recipient's registered open connection when present, a tagged
confirmation to the sender's registered open connection when distinct
from the originating one, and a tagged confirmation back over the
originating connection itself when open. -/
def chatPushes (env : Nat → Nat) (reg1 : Registry) (origin : Nat)
    (actualFromUserId actualToUserId : Int) (delivered : Message) :
    List Push :=
  let recipientPush : List Push :=
    match reg1.lookupClient actualToUserId with
    | some c =>
      if env c == wsOPEN then
        [{ conn := c, message := delivered, hasStatusTag := false }]
      else []
    | none => []
  let senderPush : List Push :=
    match reg1.lookupClient actualFromUserId with
    | some c =>
      if env c == wsOPEN && !(c == origin) then
        [{ conn := c, message := delivered, hasStatusTag := true }]
      else []
    | none => []
  let originPush : List Push :=
    if env origin == wsOPEN then
      [{ conn := origin, message := delivered, hasStatusTag := true }]
    else []
  recipientPush ++ senderPush ++ originPush

open Storage in
/-- The `chat_message` branch of the socket message handler
(`server/routes.ts`), for an event arriving on connection `origin` whose
handler-scope `userId` is `wsUser`:

1. resolve both users, dropping the event when either is missing;
2. self-send guard: a doctor sending to themselves aborts; a patient
   sending to themselves is redirected by `chatActualTo`;
3. persist through `createMessage` with explicit status `"sent"` (which
   itself runs the store-side conversation-ensure logic);
4. `chatRegStep`: register the originating connection when it had no
   truthy `userId` yet;
5. `chatConvStep`: the handler-level conversation ensure (dropping the
   event if either re-resolved user is missing);
6. update the stored message's status to `"delivered"` and mutate the
   local object likewise;
7. `chatPushes`: fan out to recipient, sender and originating socket. -/
def handleChatMessage (env : Nat → Nat) (now : Int) (reg : Registry)
    (s : Storage) (origin : Nat) (wsUser : Option Int) (d : ChatEvent) :
    ChatResult :=
  match s.getUser d.fromUserId, s.getUser d.toUserId with
  | some fromUser, some _ =>
    if d.fromUserId == d.toUserId && fromUser.role == .doctor then
      { store := s, registry := reg, wsUser := wsUser, pushes := [] }
    else
      let actualFromUserId := d.fromUserId
      let actualToUserId := chatActualTo s d
      let step3 := createMessage now s
        { fromUserId := actualFromUserId, toUserId := actualToUserId
          content := d.content, imageData := d.imageData
          status := some .sent }
      let s1 := step3.1
      let newMessage := step3.2
      let regStep := chatRegStep env reg origin wsUser d.fromUserId
      let reg1 := regStep.1
      let wsUser1 := regStep.2
      match chatConvStep now s1 d actualFromUserId actualToUserId with
      | none =>
        { store := s1, registry := reg1, wsUser := wsUser1, pushes := [] }
      | some s2 =>
        let s3 := (s2.updateMessageStatus newMessage.id .delivered).1
        let delivered := { newMessage with status := MessageStatus.delivered }
        { store := s3, registry := reg1, wsUser := wsUser1
          pushes := chatPushes env reg1 origin actualFromUserId
            actualToUserId delivered }
  | _, _ => { store := s, registry := reg, wsUser := wsUser, pushes := [] }

/-! ## REST handlers -/

/-- Outcome of a REST handler: the store afterwards and the HTTP status
code of the response. -/
structure RestResult where
  store : Storage
  status : Nat
deriving Repr

/-- Body of a `POST /api/messages` request after passing
`insertMessageSchema` validation.  The schema omits only `id` and
`sentAt`, so a client may supply any of the three enum values for
`status` (optional, as the column has a default); `fromUserId` is present
in the schema but the handler overwrites it before parsing. -/
structure PostMessageBody where
  toUserId : Int
  content : String
  imageData : Option String
  status : Option MessageStatus
deriving DecidableEq, Repr

open Storage in
/-- `POST /api/messages`: spreads the body and forces
`fromUserId := req.session.userId` before validation, then persists via
`createMessage` and returns 201 with the created message. -/
def postMessagesHandler (now : Int) (s : Storage) (sessionUserId : Int)
    (body : PostMessageBody) : RestResult × Message :=
  let created := createMessage now s
    { fromUserId := sessionUserId, toUserId := body.toUserId
      content := body.content, imageData := body.imageData
      status := body.status }
  ({ store := created.1, status := 201 }, created.2)

open Storage in
/-- `GET /api/conversations/:id/messages`: 404 when the conversation is
missing, 403 when the session user is neither its doctor nor its patient;
otherwise fetches the messages, then marks every one addressed to the
caller whose status is not already `"read"` as `"read"`, and returns 200
(with the list as fetched, i.e. pre-update statuses). -/
def getConversationMessagesHandler (s : Storage) (sessionUserId : Int)
    (conversationId : Int) : RestResult × List Message :=
  match getConversation s conversationId with
  | none => ({ store := s, status := 404 }, [])
  | some conversation =>
    if conversation.doctorId ≠ sessionUserId ∧
        conversation.patientId ≠ sessionUserId then
      ({ store := s, status := 403 }, [])
    else
      let messages := getMessagesByConversation s conversationId
      let messagesToUpdate := messages.filter (fun msg =>
        msg.toUserId == sessionUserId && !(msg.status == MessageStatus.read))
      let s' := messagesToUpdate.foldl
        (fun st msg => (updateMessageStatus st msg.id .read).1) s
      ({ store := s', status := 200 }, messages)

open Storage in
/-- `DELETE /api/conversations/:id`: 404 when missing, 403 when the caller
is not a participant, otherwise delegates to the store's cascading
`deleteConversation` (200 on success, 500 otherwise). -/
def deleteConversationHandler (s : Storage) (sessionUserId : Int)
    (conversationId : Int) : RestResult :=
  match getConversation s conversationId with
  | none => { store := s, status := 404 }
  | some conversation =>
    if conversation.doctorId ≠ sessionUserId ∧
        conversation.patientId ≠ sessionUserId then
      { store := s, status := 403 }
    else
      let del := deleteConversation s conversationId sessionUserId
      if del.2 then { store := del.1, status := 200 }
      else { store := s, status := 500 }

open Storage in
/-- `PATCH /api/messages/:id`: 404 when the message is missing, 403 when
the caller is not the stored sender, otherwise updates the content and
returns 200. -/
def patchMessageHandler (s : Storage) (sessionUserId : Int)
    (messageId : Int) (content : String) : RestResult :=
  match getMessage s messageId with
  | none => { store := s, status := 404 }
  | some message =>
    if message.fromUserId ≠ sessionUserId then
      { store := s, status := 403 }
    else
      let upd := updateMessage s messageId content
      match upd.2 with
      | none => { store := s, status := 500 }
      | some _ => { store := upd.1, status := 200 }

open Storage in
/-- `DELETE /api/messages/:id`: 404 when missing, 403 when the caller is
not the stored sender, otherwise deletes and returns 200. -/
def deleteMessageHandler (s : Storage) (sessionUserId : Int)
    (messageId : Int) : RestResult :=
  match getMessage s messageId with
  | none => { store := s, status := 404 }
  | some message =>
    if message.fromUserId ≠ sessionUserId then
      { store := s, status := 403 }
    else
      let del := deleteMessage s messageId
      if del.2 then { store := del.1, status := 200 }
      else { store := s, status := 500 }

/-! ## Client reconnect backoff -/

/-- `Math.min(1000 * Math.pow(1.5, reconnectAttempts), 15000)` — the
delay (in milliseconds, as an exact rational) computed by the chat page's
socket `close` listener before scheduling a reconnect. -/
def reconnectDelay (reconnectAttempts : ℕ) : ℚ :=
  min (1000 * (3 / 2 : ℚ) ^ reconnectAttempts) 15000

/-- One unclean close with no successful open in between: the close
listener computes the delay from the current attempt counter and then
increments the counter (`reconnectAttempts++` after reading it). -/
def onCloseStep (reconnectAttempts : ℕ) : ℚ × ℕ :=
  (reconnectDelay reconnectAttempts, reconnectAttempts + 1)

/-! ## Concrete fixtures

Small store and registry states used to exercise the model on concrete
inputs.  `pairStore` holds a patient with id 2 and a doctor with id 3
(reachable by two `createUser` calls after the two seeded users are
removed, or simply a later registration order in which a doctor signs up
after a patient), with no messages or conversations yet. -/

/-- A store with patient 2 and doctor 3 and empty message state. -/
def pairStore : Storage :=
  { users := [⟨2, .patient⟩, ⟨3, .doctor⟩], messages := []
    conversations := [], currentMessageId := 1, currentConversationId := 1 }

/-- A store with an existing conversation between doctor 3 and patient 2
and two messages, one in each direction. -/
def msgStore : Storage :=
  { users := [⟨2, .patient⟩, ⟨3, .doctor⟩]
    messages := [⟨1, 3, 2, "hello", none, .delivered, 5⟩,
                 ⟨2, 2, 3, "reply", none, .sent, 6⟩]
    conversations := [⟨1, 3, 2, 6, 0⟩]
    currentMessageId := 3, currentConversationId := 2 }

/-- A connection environment in which only connection 10 is `OPEN`. -/
def envOnly10 : Nat → Nat := fun c => if c == 10 then 1 else 3

/-- A connection environment in which every connection is `OPEN`. -/
def envAllOpen : Nat → Nat := fun _ => 1

/-- A registry whose entry for user 2 (connection 11) has gone stale. -/
def staleRegistry : Registry :=
  { clients := [(1, 10), (2, 11)], onlineUsers := [1, 2] }

/-! ## Helper lemmas -/

section Helpers

/-- `find?` finds `a` when `a` is a member satisfying the predicate and
every satisfying member equals `a`. -/
theorem find?_eq_some_of_unique {α : Type} (p : α → Bool) (l : List α)
    (a : α) (ha : a ∈ l) (hpa : p a = true)
    (huniq : ∀ b ∈ l, p b = true → b = a) : l.find? p = some a := by
  cases h : l.find? p with
  | none =>
    exact absurd hpa (by simpa using List.find?_eq_none.mp h a ha)
  | some b =>
    rw [huniq b (List.mem_of_find?_eq_some h) (List.find?_some h)]

/-- `find?` over an append whose first part has no match. -/
theorem find?_append_left_none {α : Type} (p : α → Bool) (l1 l2 : List α)
    (h : l1.find? p = none) : (l1 ++ l2).find? p = l2.find? p := by
  rw [List.find?_append, h, Option.none_or]

end Helpers

/-! ## C8: reconnect backoff -/

/-- **C8** (confirmed).  Three consecutive closes with no successful open
in between: the delay computed after the third close is strictly greater
than the delay computed after the first close, and for every attempt
count the computed delay never exceeds the 15000 ms ceiling. -/
theorem reconnect_backoff_monotone_and_capped :
    (onCloseStep 0).1 < (onCloseStep (onCloseStep (onCloseStep 0).2).2).1 ∧
      ∀ n : ℕ, reconnectDelay n ≤ 15000 := by
  constructor
  · norm_num [onCloseStep, reconnectDelay, min_def]
  · intro n
    exact min_le_right _ _

/-! ## C1: conversation uniqueness -/

/-- **C1** (code bug).  Conversation uniqueness fails on the code: with
patient id 2 and doctor id 3 (so the doctor's id is the larger of the
pair), invoking the ensure-conversation-exists logic twice for the same
pair — two `createMessage` calls from doctor 3 to patient 2 — leaves two
`Conversation` rows for the pair (3, 2).  The second call's lookup
`getConversationByUsers(min, max)` asks for `doctorId = 2, patientId = 3`
while the row created by the first call has `doctorId = 3, patientId = 2`
(columns assigned by role), so the existing row is never found. -/
theorem createMessage_duplicate_conversation_rows :
    (((Storage.createMessage 1
          (Storage.createMessage 0 pairStore
            ⟨3, 2, "hi", none, some .sent⟩).1
          ⟨3, 2, "hi", none, some .sent⟩).1.conversations.filter
        (fun c => c.doctorId == 3 && c.patientId == 2)).length = 2) := by
  decide

/-! ## C2: presence completeness -/

/-- **C2** (counterexample).  The claim that every surviving connection
receives the online-set *as it stands after the eviction sweep* is false:
with user 1 on open connection 10 and user 2 on stale connection 11,
`broadcastOnlineStatus` evicts user 2 (post-sweep online-set `[1]`) yet
the payload delivered to connection 10 is the pre-sweep snapshot
`[1, 2]`. -/
theorem broadcast_payload_is_presweep_cex :
    (Registry.broadcastOnlineStatus envOnly10 staleRegistry).sends
        = [(10, [1, 2])] ∧
      (Registry.broadcastOnlineStatus envOnly10 staleRegistry).registry.onlineUsers
        = [1] ∧
      ([1, 2] : List Int) ≠ [1] := by
  refine ⟨by decide, by decide, by decide⟩

namespace Registry

/-- The eviction pass only ever removes users from the online-set. -/
theorem mem_of_mem_sweepOnline {env : Nat → Nat} {v : Int} :
    ∀ {l : List (Int × Nat)} {online : List Int},
      v ∈ sweepOnline env l online → v ∈ online
  | [], _, h => h
  | p :: rest, online, h => by
    unfold sweepOnline at h
    by_cases hc : env p.2 == wsOPEN
    · rw [if_pos hc] at h
      exact mem_of_mem_sweepOnline h
    · rw [if_neg hc] at h
      exact List.mem_of_mem_filter (mem_of_mem_sweepOnline h)

/-- A user with a stale registry entry is removed from the online-set by
the eviction pass. -/
theorem not_mem_sweepOnline_of_stale {env : Nat → Nat} {u : Int} {c : Nat} :
    ∀ {l : List (Int × Nat)} {online : List Int},
      (u, c) ∈ l → env c ≠ wsOPEN → u ∉ sweepOnline env l online
  | p :: rest, online, hmem, hstale, habs => by
    unfold sweepOnline at habs
    rcases List.mem_cons.mp hmem with heq | htail
    · have hp2 : env p.2 ≠ wsOPEN := by rw [← heq]; exact hstale
      rw [if_neg (by simpa using hp2)] at habs
      have hup1 : p.1 = u := by rw [← heq]
      have : u ∈ online.filter (fun v => !(v == p.1)) :=
        mem_of_mem_sweepOnline habs
      have := List.of_mem_filter this
      simp [hup1] at this
    · by_cases hc : env p.2 == wsOPEN
      · rw [if_pos hc] at habs
        exact not_mem_sweepOnline_of_stale htail hstale habs
      · rw [if_neg hc] at habs
        exact not_mem_sweepOnline_of_stale htail hstale habs

/-- When every entry of the list is open, the send pass delivers the
payload to each connection in order. -/
theorem sendAll_eq_map_of_open {env : Nat → Nat} {payload : List Int} :
    ∀ {l : List (Int × Nat)}, (∀ p ∈ l, env p.2 = wsOPEN) →
      sendAll env payload l = l.map (fun p => (p.2, payload))
  | [], _ => rfl
  | p :: rest, h => by
    unfold sendAll
    rw [if_pos (by simpa using h p (List.mem_cons_self p rest)), List.map_cons,
      sendAll_eq_map_of_open (fun q hq => h q (List.mem_cons_of_mem p hq))]

end Registry

/-- **C2** (amended).  `broadcastOnlineStatus` first evicts every registry
entry whose connection is not open — removing it from both the registry
and the online-set — and then every connection remaining in the registry
receives an `online_status` payload; but the `onlineUsers` list sent is
the snapshot taken at the start of the broadcast, *before* the eviction
sweep, not the post-sweep online-set. -/
theorem broadcast_evicts_and_sends_presweep_snapshot (env : Nat → Nat)
    (r : Registry) :
    (∀ p ∈ (Registry.broadcastOnlineStatus env r).registry.clients,
        env p.2 = wsOPEN) ∧
    (∀ p ∈ r.clients, env p.2 ≠ wsOPEN →
        p ∉ (Registry.broadcastOnlineStatus env r).registry.clients ∧
        p.1 ∉ (Registry.broadcastOnlineStatus env r).registry.onlineUsers) ∧
    (Registry.broadcastOnlineStatus env r).sends =
      (Registry.broadcastOnlineStatus env r).registry.clients.map
        (fun p => (p.2, r.onlineUsers)) := by
  refine ⟨?_, ?_, ?_⟩
  · intro p hp
    have hp' : p ∈ r.clients.filter (fun q => env q.2 == wsOPEN) := hp
    simpa using List.of_mem_filter hp'
  · intro p hp hstale
    constructor
    · intro habs
      have habs' : p ∈ r.clients.filter (fun q => env q.2 == wsOPEN) := habs
      exact hstale (by simpa using List.of_mem_filter habs')
    · exact Registry.not_mem_sweepOnline_of_stale hp hstale
  · exact Registry.sendAll_eq_map_of_open (fun p hp => by
      have hp' : p ∈ r.clients.filter (fun q => env q.2 == wsOPEN) := hp
      simpa using List.of_mem_filter hp')

/-- Witness for the amended C2 theorem at the stale-registry fixture: the
stale entry for user 2 is evicted from both structures, and the sends are
exactly the surviving connections paired with the pre-sweep snapshot. -/
theorem broadcast_evicts_witness :
    ((2 : Int), (11 : Nat)) ∉
        (Registry.broadcastOnlineStatus envOnly10 staleRegistry).registry.clients ∧
      (2 : Int) ∉
        (Registry.broadcastOnlineStatus envOnly10 staleRegistry).registry.onlineUsers ∧
      (Registry.broadcastOnlineStatus envOnly10 staleRegistry).sends =
        (Registry.broadcastOnlineStatus envOnly10 staleRegistry).registry.clients.map
          (fun p => (p.2, staleRegistry.onlineUsers)) := by
  have h := broadcast_evicts_and_sends_presweep_snapshot envOnly10 staleRegistry
  have h2 := h.2.1 (2, 11) (by decide) (by decide)
  exact ⟨h2.1, h2.2, h.2.2⟩

/-! ## Store frame lemmas -/

namespace Storage

/-- `updateConversationLastMessage` leaves the messages map untouched. -/
theorem updateConversationLastMessage_messages (s : Storage) (id ts : Int) :
    ((s.updateConversationLastMessage id ts).1).messages = s.messages := by
  unfold updateConversationLastMessage
  cases s.conversations.find? (fun c => c.id == id) <;> rfl

/-- `updateConversationLastMessage` leaves the users map untouched. -/
theorem updateConversationLastMessage_users (s : Storage) (id ts : Int) :
    ((s.updateConversationLastMessage id ts).1).users = s.users := by
  unfold updateConversationLastMessage
  cases s.conversations.find? (fun c => c.id == id) <;> rfl

/-- The message row built and returned by `createMessage`. -/
theorem createMessage_snd (now : Int) (s : Storage) (im : InsertMessage) :
    (createMessage now s im).2 =
      { id := s.currentMessageId, fromUserId := im.fromUserId
        toUserId := im.toUserId, content := im.content
        imageData := im.imageData, status := im.status.getD .sent
        sentAt := now } := rfl

/-- The messages map after `createMessage` is the old map with the new
row `Map.set` in; the conversation-ensure step never touches messages. -/
theorem createMessage_messages (now : Int) (s : Storage) (im : InsertMessage) :
    ((createMessage now s im).1).messages =
      setMessage s.messages (createMessage now s im).2 := by
  rw [createMessage_snd]
  unfold createMessage
  dsimp only
  split
  · rw [updateConversationLastMessage_messages]
  · split <;> rfl

/-- `createMessage` leaves the users map untouched. -/
theorem createMessage_users (now : Int) (s : Storage) (im : InsertMessage) :
    ((createMessage now s im).1).users = s.users := by
  unfold createMessage
  dsimp only
  split
  · rw [updateConversationLastMessage_users]
  · split <;> rfl

/-- `Map.set` of a row whose id is fresh appends it. -/
theorem setMessage_append_of_fresh {l : List Message} {m : Message}
    (h : ∀ x ∈ l, x.id ≠ m.id) : setMessage l m = l ++ [m] := by
  have hany : (l.any fun x => x.id == m.id) = false := by
    rw [List.any_eq_false]
    intro x hx
    simpa using h x hx
  simp [setMessage, hany]

/-- Looking a freshly appended row up by its id finds it. -/
theorem getMessage_append_fresh {l : List Message} {m : Message} {s : Storage}
    (hs : s.messages = l ++ [m]) (h : ∀ x ∈ l, x.id ≠ m.id) :
    s.getMessage m.id = some m := by
  unfold getMessage
  rw [hs, find?_append_left_none]
  · simp
  · exact List.find?_eq_none.mpr (fun x hx => by simpa using h x hx)

end Storage

/-! ## C3: REST message creation -/

/-- **C3** (counterexample).  `insertMessageSchema` omits only `id` and
`sentAt`, so a payload carrying `status: "delivered"` passes validation;
the handler stores it as given, so the created message's status is not
`"sent"`. -/
theorem postMessages_client_status_cex :
    (postMessagesHandler 0 pairStore 3 ⟨2, "x", none, some .delivered⟩).2.status
        = .delivered ∧
      MessageStatus.delivered ≠ .sent := by
  refine ⟨by decide, by decide⟩

/-- **C3** (amended).  `POST /api/messages` always forces the created
message's `fromUserId` to the session's authenticated identifier, ignoring
any client-supplied sender; the stored status is `"sent"` whenever the
validated payload carries no explicit status (and in general is exactly
the payload's status, defaulted to `"sent"`), and the created row is
persisted in the store under the fresh id. -/
theorem postMessages_forces_sender (now : Int) (s : Storage)
    (sessionUserId : Int) (body : PostMessageBody)
    (hfresh : ∀ m ∈ s.messages, m.id ≠ s.currentMessageId) :
    (postMessagesHandler now s sessionUserId body).2.fromUserId
        = sessionUserId ∧
      (postMessagesHandler now s sessionUserId body).2.status
        = body.status.getD .sent ∧
      (body.status = none →
        (postMessagesHandler now s sessionUserId body).2.status = .sent) ∧
      ((postMessagesHandler now s sessionUserId body).1.store).getMessage
          s.currentMessageId
        = some (postMessagesHandler now s sessionUserId body).2 := by
  have h2 : (postMessagesHandler now s sessionUserId body).2.status
      = body.status.getD .sent := rfl
  refine ⟨rfl, h2, ?_, ?_⟩
  · intro hnone
    rw [h2, hnone]
    rfl
  · have hmsg := Storage.createMessage_messages now s
      { fromUserId := sessionUserId, toUserId := body.toUserId
        content := body.content, imageData := body.imageData
        status := body.status }
    have hid : (Storage.createMessage now s
        { fromUserId := sessionUserId, toUserId := body.toUserId
          content := body.content, imageData := body.imageData
          status := body.status }).2.id = s.currentMessageId := rfl
    have hfresh' : ∀ x ∈ s.messages,
        x.id ≠ (Storage.createMessage now s
          { fromUserId := sessionUserId, toUserId := body.toUserId
            content := body.content, imageData := body.imageData
            status := body.status }).2.id := by
      intro x hx
      rw [hid]
      exact hfresh x hx
    have happ := Storage.setMessage_append_of_fresh hfresh'
    rw [happ] at hmsg
    have := Storage.getMessage_append_fresh hmsg hfresh'
    simpa only [postMessagesHandler, hid] using this

/-- Witness for the amended C3 theorem: a status-less payload from session
user 3 produces a stored message from 3 with status `"sent"`. -/
theorem postMessages_forces_sender_witness :
    (postMessagesHandler 7 pairStore 3 ⟨2, "hi", none, none⟩).2.fromUserId
        = 3 ∧
      (postMessagesHandler 7 pairStore 3 ⟨2, "hi", none, none⟩).2.status
        = .sent ∧
      ((postMessagesHandler 7 pairStore 3 ⟨2, "hi", none, none⟩).1.store).getMessage
          pairStore.currentMessageId
        = some (postMessagesHandler 7 pairStore 3 ⟨2, "hi", none, none⟩).2 := by
  have h := postMessages_forces_sender 7 pairStore 3 ⟨2, "hi", none, none⟩
    (by intro m hm; cases hm)
  exact ⟨h.1, h.2.2.1 rfl, h.2.2.2⟩

/-! ## C9: message ordering -/

namespace Storage

/-- Membership through `insertBySentAt`. -/
theorem mem_insertBySentAt {x m : Message} :
    ∀ {l : List Message}, x ∈ insertBySentAt m l ↔ x = m ∨ x ∈ l
  | [] => by simp [insertBySentAt]
  | y :: ys => by
    unfold insertBySentAt
    by_cases hc : y.sentAt ≤ m.sentAt
    · rw [if_pos (by simpa using hc)]
      simp only [List.mem_cons, mem_insertBySentAt]
      tauto
    · rw [if_neg (by simpa using hc)]
      simp only [List.mem_cons]

/-- Inserting into a list sorted by `sentAt` keeps it sorted. -/
theorem sorted_insertBySentAt {m : Message} :
    ∀ {l : List Message},
      List.Sorted (fun x y : Message => x.sentAt ≤ y.sentAt) l →
      List.Sorted (fun x y : Message => x.sentAt ≤ y.sentAt)
        (insertBySentAt m l)
  | [], _ => List.sorted_singleton m
  | y :: ys, h => by
    unfold insertBySentAt
    rcases List.sorted_cons.mp h with ⟨hy, hys⟩
    by_cases hc : y.sentAt ≤ m.sentAt
    · rw [if_pos (by simpa using hc)]
      refine List.sorted_cons.mpr ⟨?_, sorted_insertBySentAt hys⟩
      intro b hb
      rcases mem_insertBySentAt.mp hb with rfl | hbys
      · exact hc
      · exact hy b hbys
    · rw [if_neg (by simpa using hc)]
      have hmy : m.sentAt ≤ y.sentAt := le_of_not_le hc
      refine List.sorted_cons.mpr ⟨?_, h⟩
      intro b hb
      rcases List.mem_cons.mp hb with rfl | hbys
      · exact hmy
      · exact le_trans hmy (hy b hbys)

/-- The insertion-sort fold produces a sorted list from any sorted
accumulator. -/
theorem sorted_sortBySentAt_fold :
    ∀ (l acc : List Message),
      List.Sorted (fun x y : Message => x.sentAt ≤ y.sentAt) acc →
      List.Sorted (fun x y : Message => x.sentAt ≤ y.sentAt)
        (l.foldl (fun acc m => insertBySentAt m acc) acc)
  | [], _, h => h
  | m :: rest, acc, h =>
    sorted_sortBySentAt_fold rest (insertBySentAt m acc)
      (sorted_insertBySentAt h)

/-- `sortBySentAt` always returns a list sorted by `sentAt`. -/
theorem sorted_sortBySentAt (l : List Message) :
    List.Sorted (fun x y : Message => x.sentAt ≤ y.sentAt) (sortBySentAt l) :=
  sorted_sortBySentAt_fold l [] (List.sorted_nil)

end Storage

/-- **C9** (confirmed).  For any store and user pair, the list produced by
`getMessagesBetweenUsers` — and hence the list returned by
`GET /api/conversations/:id/messages`, which serves
`getMessagesByConversation` output — is non-decreasing in `sentAt`. -/
theorem messages_sorted_by_sentAt (s : Storage) (a b : Int)
    (sessionUserId conversationId : Int) :
    List.Sorted (fun x y : Message => x.sentAt ≤ y.sentAt)
        (s.getMessagesBetweenUsers a b) ∧
      List.Sorted (fun x y : Message => x.sentAt ≤ y.sentAt)
        (getConversationMessagesHandler s sessionUserId conversationId).2 := by
  constructor
  · exact Storage.sorted_sortBySentAt _
  · unfold getConversationMessagesHandler
    split
    · exact List.sorted_nil
    · split
      · exact List.sorted_nil
      · dsimp only
        unfold Storage.getMessagesByConversation
        split
        · exact List.sorted_nil
        · exact Storage.sorted_sortBySentAt _

/-! ## C7: authorization rejections -/

/-- **C7** (confirmed).  `DELETE /api/conversations/:id` answers 403 and
leaves the store unchanged whenever the caller is neither the
conversation's doctor nor its patient, and `PATCH /api/messages/:id` and
`DELETE /api/messages/:id` answer 403 and leave the store unchanged
whenever the caller is not the message's stored sender — for every
payload. -/
theorem handlers_reject_unauthorized (s : Storage) (sessionUserId : Int) :
    (∀ conversationId conv,
        s.getConversation conversationId = some conv →
        conv.doctorId ≠ sessionUserId → conv.patientId ≠ sessionUserId →
        deleteConversationHandler s sessionUserId conversationId
          = { store := s, status := 403 }) ∧
      (∀ messageId msg content,
        s.getMessage messageId = some msg →
        msg.fromUserId ≠ sessionUserId →
        patchMessageHandler s sessionUserId messageId content
          = { store := s, status := 403 }) ∧
      (∀ messageId msg,
        s.getMessage messageId = some msg →
        msg.fromUserId ≠ sessionUserId →
        deleteMessageHandler s sessionUserId messageId
          = { store := s, status := 403 }) := by
  refine ⟨?_, ?_, ?_⟩
  · intro conversationId conv hconv hd hp
    unfold deleteConversationHandler
    rw [hconv]
    simp [hd, hp]
  · intro messageId msg content hmsg hfrom
    unfold patchMessageHandler
    rw [hmsg]
    simp [hfrom]
  · intro messageId msg hmsg hfrom
    unfold deleteMessageHandler
    rw [hmsg]
    simp [hfrom]

/-- Witness for C7 at the fixture store: caller 5 is neither participant
of conversation 1 nor sender of message 1, and all three handlers answer
403 leaving the store unchanged. -/
theorem handlers_reject_unauthorized_witness :
    deleteConversationHandler msgStore 5 1 = { store := msgStore, status := 403 } ∧
      patchMessageHandler msgStore 5 1 "edited" = { store := msgStore, status := 403 } ∧
      deleteMessageHandler msgStore 5 1 = { store := msgStore, status := 403 } := by
  have h := handlers_reject_unauthorized msgStore 5
  exact ⟨h.1 1 ⟨1, 3, 2, 6, 0⟩ (by decide) (by decide) (by decide),
    h.2.1 1 ⟨1, 3, 2, "hello", none, .delivered, 5⟩ "edited" (by decide) (by decide),
    h.2.2 1 ⟨1, 3, 2, "hello", none, .delivered, 5⟩ (by decide) (by decide)⟩

/-! ## C6: read side effect with frame -/

namespace Storage

/-- `updateMessageStatus` never changes the multiset of message ids. -/
theorem updateMessageStatus_ids (s : Storage) (i : Int) (st : MessageStatus) :
    (((s.updateMessageStatus i st).1).messages).map (fun m => m.id)
      = s.messages.map (fun m => m.id) := by
  unfold updateMessageStatus
  cases h : s.messages.find? (fun m => m.id == i) with
  | none => rfl
  | some m =>
    have hmid : m.id = i := by simpa using List.find?_some h
    have hany : (s.messages.any
        (fun x => x.id == ({ m with status := st } : Message).id)) = true :=
      List.any_eq_true.mpr ⟨m, List.mem_of_find?_eq_some h, by simp⟩
    dsimp only
    rw [setMessage, if_pos hany, List.map_map]
    refine List.map_congr_left (fun x _ => ?_)
    by_cases hx : x.id = m.id
    · simp [Function.comp, hx]
    · simp [Function.comp, hx]

/-- With duplicate-free ids, `updateMessageStatus i st` rewrites exactly
the row with id `i`, touching only its status field. -/
theorem updateMessageStatus_messages (s : Storage) (i : Int)
    (st : MessageStatus) (hn : (s.messages.map (fun m => m.id)).Nodup) :
    ((s.updateMessageStatus i st).1).messages
      = s.messages.map
          (fun x => if x.id = i then { x with status := st } else x) := by
  unfold updateMessageStatus
  cases h : s.messages.find? (fun m => m.id == i) with
  | none =>
    have hnone := List.find?_eq_none.mp h
    dsimp only
    rw [show s.messages = s.messages.map (fun x => x) by rw [List.map_id']]
    rw [List.map_map]
    refine List.map_congr_left (fun x hx => ?_)
    have : x.id ≠ i := by simpa using hnone x (by simpa using hx)
    simp [Function.comp, this]
  | some m =>
    have hmid : m.id = i := by simpa using List.find?_some h
    have hmmem := List.mem_of_find?_eq_some h
    have hany : (s.messages.any
        (fun x => x.id == ({ m with status := st } : Message).id)) = true :=
      List.any_eq_true.mpr ⟨m, hmmem, by simp⟩
    dsimp only
    rw [setMessage, if_pos hany]
    refine List.map_congr_left (fun x hx => ?_)
    by_cases hxi : x.id = i
    · have hxm : x = m :=
        List.inj_on_of_nodup_map hn hx hmmem (by rw [hxi, hmid])
      simp [hxi, hxm, hmid]
    · have : ¬(x.id = ({ m with status := st } : Message).id) := by
        simpa [hmid] using hxi
      simp [hxi, this]

/-- The read-marking fold of the messages handler: folding
`updateMessageStatus · .read` over a list of messages sets the status of
exactly the rows whose ids occur in the list. -/
theorem foldl_markRead_messages :
    ∀ (L : List Message) (s : Storage),
      (s.messages.map (fun m => m.id)).Nodup →
      ((L.foldl (fun st msg => (st.updateMessageStatus msg.id .read).1) s).messages
        = s.messages.map (fun x =>
            if x.id ∈ L.map (fun m => m.id)
            then { x with status := MessageStatus.read } else x))
  | [], s, _ => by
    simp
  | m :: L, s, hn => by
    rw [List.foldl_cons]
    have hn' : ((((s.updateMessageStatus m.id .read).1).messages).map
        (fun m => m.id)).Nodup := by
      rw [updateMessageStatus_ids]
      exact hn
    rw [foldl_markRead_messages L _ hn']
    rw [updateMessageStatus_messages s m.id .read hn, List.map_map]
    refine List.map_congr_left (fun x _ => ?_)
    by_cases hx : x.id = m.id
    · by_cases hxl : x.id ∈ L.map (fun m => m.id) <;>
        simp [Function.comp, hx, hxl]
    · by_cases hxl : x.id ∈ L.map (fun m => m.id) <;>
        simp [Function.comp, hx, hxl]

/-- Membership is preserved through the insertion-sort fold. -/
theorem mem_sortBySentAt_fold {x : Message} :
    ∀ (l acc : List Message),
      (x ∈ l.foldl (fun acc m => insertBySentAt m acc) acc ↔
        x ∈ acc ∨ x ∈ l)
  | [], acc => by simp
  | m :: rest, acc => by
    rw [List.foldl_cons, mem_sortBySentAt_fold rest (insertBySentAt m acc),
      mem_insertBySentAt]
    simp only [List.mem_cons]
    tauto

/-- Membership is preserved by `sortBySentAt`. -/
theorem mem_sortBySentAt {x : Message} (l : List Message) :
    x ∈ sortBySentAt l ↔ x ∈ l := by
  rw [sortBySentAt, mem_sortBySentAt_fold]
  simp

end Storage

/-- **C6** (confirmed).  When an authorized participant `U` fetches the
messages of conversation `conversationId` (with duplicate-free message
ids, as the id counter guarantees), the handler answers 200 and the store
afterwards relates to the store before pointwise: every message of the
conversation addressed to `U` whose status was not already `"read"` (i.e.
was `"sent"` or `"delivered"`) now carries status `"read"` with all other
fields intact, and every other message — in particular every message not
addressed to `U` — is completely unchanged. -/
theorem getMessages_marks_read (s : Storage) (sessionUserId conversationId : Int)
    (conv : Conversation)
    (hconv : s.getConversation conversationId = some conv)
    (hauth : conv.doctorId = sessionUserId ∨ conv.patientId = sessionUserId)
    (hn : (s.messages.map (fun m => m.id)).Nodup) :
    ((getConversationMessagesHandler s sessionUserId conversationId).1.store).messages
        = s.messages.map (fun m =>
            if ((m.fromUserId = conv.doctorId ∧ m.toUserId = conv.patientId) ∨
                  (m.fromUserId = conv.patientId ∧ m.toUserId = conv.doctorId)) ∧
                m.toUserId = sessionUserId ∧ m.status ≠ .read
            then { m with status := MessageStatus.read } else m) ∧
      (getConversationMessagesHandler s sessionUserId conversationId).1.status
        = 200 := by
  have hnotguard : ¬(conv.doctorId ≠ sessionUserId ∧
      conv.patientId ≠ sessionUserId) := by
    rcases hauth with h | h <;> simp [h]
  constructor
  · unfold getConversationMessagesHandler
    rw [hconv]
    dsimp only
    rw [if_neg hnotguard]
    dsimp only
    rw [Storage.foldl_markRead_messages _ _ hn]
    refine List.map_congr_left (fun x hxmem => ?_)
    have hiff : (x.id ∈ (((Storage.getMessagesByConversation s conversationId).filter
          (fun msg => msg.toUserId == sessionUserId &&
            !(msg.status == MessageStatus.read))).map (fun m => m.id)))
        ↔ (((x.fromUserId = conv.doctorId ∧ x.toUserId = conv.patientId) ∨
              (x.fromUserId = conv.patientId ∧ x.toUserId = conv.doctorId)) ∧
            x.toUserId = sessionUserId ∧ x.status ≠ .read) := by
      unfold Storage.getMessagesByConversation
      rw [hconv]
      constructor
      · intro hmem
        rcases List.mem_map.mp hmem with ⟨y, hy, hyid⟩
        have hy1 := List.mem_filter.mp hy
        have hy2 := (Storage.mem_sortBySentAt _).mp (by
          simpa [Storage.getMessagesBetweenUsers] using hy1.1)
        have hy3 := List.mem_filter.mp hy2
        have hxy : y = x :=
          List.inj_on_of_nodup_map hn hy3.1 hxmem hyid
        subst hxy
        refine ⟨?_, ?_⟩
        · have := hy3.2
          simp only [Bool.or_eq_true, Bool.and_eq_true, beq_iff_eq] at this
          tauto
        · have := hy1.2
          simp only [Bool.and_eq_true, beq_iff_eq, Bool.not_eq_true',
            beq_eq_false_iff_ne, ne_eq] at this
          exact this
      · intro hcond
        refine List.mem_map.mpr ⟨x, ?_, rfl⟩
        refine List.mem_filter.mpr ⟨?_, ?_⟩
        · show x ∈ Storage.getMessagesBetweenUsers s conv.doctorId conv.patientId
          rw [Storage.getMessagesBetweenUsers, Storage.mem_sortBySentAt]
          refine List.mem_filter.mpr ⟨hxmem, ?_⟩
          rcases hcond.1 with ⟨h1, h2⟩ | ⟨h1, h2⟩ <;>
            simp [h1, h2]
        · rcases hcond with ⟨_, hto, hst⟩
          simp [hto, hst]
    by_cases hc : x.id ∈ (((Storage.getMessagesByConversation s conversationId).filter
        (fun msg => msg.toUserId == sessionUserId &&
          !(msg.status == MessageStatus.read))).map (fun m => m.id))
    · rw [if_pos hc, if_pos (hiff.mp hc)]
    · rw [if_neg hc, if_neg (fun h => hc (hiff.mpr h))]
  · unfold getConversationMessagesHandler
    rw [hconv]
    dsimp only
    rw [if_neg hnotguard]

/-- Witness for C6 at the fixture store: patient 2 fetches conversation 1;
the delivered message addressed to them becomes `"read"` and the other
message is untouched. -/
theorem getMessages_marks_read_witness :
    ((getConversationMessagesHandler msgStore 2 1).1.store).messages
        = [⟨1, 3, 2, "hello", none, .read, 5⟩,
           ⟨2, 2, 3, "reply", none, .sent, 6⟩] ∧
      (getConversationMessagesHandler msgStore 2 1).1.status = 200 := by
  have h := getMessages_marks_read msgStore 2 1 ⟨1, 3, 2, 6, 0⟩
    (by decide) (Or.inr rfl) (by decide)
  refine ⟨?_, h.2⟩
  rw [h.1]
  decide

/-! ## C5 and C10: registry lemmas -/

namespace Registry

/-- Unfolding `registerHandler` for a truthy user id. -/
theorem registerHandler_of_ne {u : Int} (env : Nat → Nat) (r : Registry)
    (c : Nat) (hu : u ≠ 0) :
    registerHandler env r u c =
      broadcastOnlineStatus env
        { clients := setClient r.clients u c
          onlineUsers := addOnline r.onlineUsers u } := by
  rw [registerHandler, if_neg (by simpa using hu)]

/-- Unfolding `closeHandler` for a truthy user id. -/
theorem closeHandler_of_ne {u : Int} (env : Nat → Nat) (r : Registry)
    (hu : u ≠ 0) :
    closeHandler env r u =
      broadcastOnlineStatus env
        { clients := r.clients.filter (fun p => !(p.1 == u))
          onlineUsers := r.onlineUsers.filter (fun v => !(v == u)) } := by
  rw [closeHandler, if_neg (by simpa using hu)]

/-- Every entry of `Map.set l u c` is either the new binding or an old
entry with a different key. -/
theorem mem_setClient {p : Int × Nat} {l : List (Int × Nat)} {u : Int}
    {c : Nat} (h : p ∈ setClient l u c) :
    p = (u, c) ∨ (p ∈ l ∧ p.1 ≠ u) := by
  unfold setClient at h
  by_cases hany : l.any (fun q => q.1 == u)
  · rw [if_pos (by simpa using hany)] at h
    rcases List.mem_map.mp h with ⟨q, hq, hqe⟩
    by_cases hq1 : q.1 = u
    · left
      rw [← hqe]
      simp [hq1]
    · right
      have hpq : p = q := by
        rw [← hqe]
        simp [hq1]
      rw [hpq]
      exact ⟨hq, hq1⟩
  · rw [if_neg (by simpa using hany)] at h
    rcases List.mem_append.mp h with hl | hnew
    · right
      refine ⟨hl, ?_⟩
      have hf : (l.any fun q => q.1 == u) = false :=
        Bool.eq_false_iff.mpr hany
      simpa using List.any_eq_false.mp hf p hl
    · left
      simpa using hnew

/-- The new binding is always present after `Map.set`. -/
theorem setClient_mem_self (l : List (Int × Nat)) (u : Int) (c : Nat) :
    (u, c) ∈ setClient l u c := by
  unfold setClient
  by_cases hany : l.any (fun q => q.1 == u)
  · rw [if_pos (by simpa using hany)]
    rcases List.any_eq_true.mp hany with ⟨q, hq, hq1⟩
    refine List.mem_map.mpr ⟨q, hq, ?_⟩
    rw [if_pos hq1]
  · rw [if_neg (by simpa using hany)]
    simp

/-- `Map.get` finds the binding when it is present and unique. -/
theorem lookupClient_eq_some {r : Registry} {u : Int} {c : Nat}
    (hmem : (u, c) ∈ r.clients)
    (huniq : ∀ p ∈ r.clients, p.1 = u → p = (u, c)) :
    r.lookupClient u = some c := by
  unfold lookupClient
  rw [find?_eq_some_of_unique (fun p => p.1 == u) r.clients (u, c) hmem
    (by simp) (fun b hb hb1 => huniq b hb (by simpa using hb1))]
  rfl

/-- `Map.get` misses when no entry has the key. -/
theorem lookupClient_eq_none {r : Registry} {u : Int}
    (h : ∀ p ∈ r.clients, p.1 ≠ u) : r.lookupClient u = none := by
  unfold lookupClient
  rw [List.find?_eq_none.mpr (fun p hp => by simpa using h p hp)]
  rfl

/-- Every send performed by the send pass targets the connection of some
open entry of the swept list and carries the given payload. -/
theorem mem_sendAll_target {env : Nat → Nat} {payload : List Int}
    {q : Nat × List Int} :
    ∀ {l : List (Int × Nat)}, q ∈ sendAll env payload l →
      ∃ p ∈ l, q = (p.2, payload) ∧ env p.2 = wsOPEN
  | p :: rest, h => by
    unfold sendAll at h
    by_cases hc : env p.2 == wsOPEN
    · rw [if_pos hc] at h
      rcases List.mem_cons.mp h with rfl | htail
      · exact ⟨p, List.mem_cons_self p rest, rfl, by simpa using hc⟩
      · rcases mem_sendAll_target htail with ⟨p', hp', he, ho⟩
        exact ⟨p', List.mem_cons_of_mem p hp', he, ho⟩
    · rw [if_neg hc] at h
      rcases mem_sendAll_target h with ⟨p', hp', he, ho⟩
      exact ⟨p', List.mem_cons_of_mem p hp', he, ho⟩

/-- An open entry of the swept list does receive the payload. -/
theorem sendAll_mem_of_open {env : Nat → Nat} {payload : List Int}
    {p : Int × Nat} :
    ∀ {l : List (Int × Nat)}, p ∈ l → env p.2 = wsOPEN →
      (p.2, payload) ∈ sendAll env payload l
  | q :: rest, hmem, ho => by
    unfold sendAll
    rcases List.mem_cons.mp hmem with rfl | htail
    · rw [if_pos (by simpa using ho)]
      exact List.mem_cons_self _ _
    · by_cases hc : env q.2 == wsOPEN
      · rw [if_pos hc]
        exact List.mem_cons_of_mem _ (sendAll_mem_of_open htail ho)
      · rw [if_neg hc]
        exact sendAll_mem_of_open htail ho

end Registry

/-- **C5** (confirmed).  Last registration wins: after `register(u, c1)`
followed by `register(u, c2)` (fresh connections, non-zero user id, `c2`
open), the registry maps `u` to `c2` and to nothing else, and the presence
broadcast triggered by the second registration sends to `c2` and never to
`c1`. -/
theorem register_last_wins (env : Nat → Nat) (r0 : Registry) (u : Int)
    (c1 c2 : Nat) (hu : u ≠ 0) (hc12 : c1 ≠ c2)
    (hfresh : ∀ p ∈ r0.clients, p.2 ≠ c1 ∧ p.2 ≠ c2)
    (hopen : env c2 = wsOPEN) :
    ((Registry.registerHandler env
        (Registry.registerHandler env r0 u c1).registry u c2).registry).lookupClient u
        = some c2 ∧
      (∀ p ∈ ((Registry.registerHandler env
          (Registry.registerHandler env r0 u c1).registry u c2).registry).clients,
        p.1 = u → p = (u, c2)) ∧
      (∃ payload, (c2, payload) ∈ (Registry.registerHandler env
          (Registry.registerHandler env r0 u c1).registry u c2).sends) ∧
      (∀ q ∈ (Registry.registerHandler env
          (Registry.registerHandler env r0 u c1).registry u c2).sends,
        q.1 ≠ c1) := by
  rw [Registry.registerHandler_of_ne env r0 c1 hu]
  rw [Registry.registerHandler_of_ne env _ c2 hu]
  set r1c : List (Int × Nat) :=
    (Registry.setClient r0.clients u c1).filter (fun p => env p.2 == wsOPEN)
    with hr1c
  have hr1mem : ∀ p ∈ r1c, p = (u, c1) ∨ (p ∈ r0.clients ∧ p.1 ≠ u) := by
    intro p hp
    exact Registry.mem_setClient (List.mem_of_mem_filter hp)
  set l2 : List (Int × Nat) := Registry.setClient r1c u c2 with hl2
  have huniq2 : ∀ p ∈ l2, p.1 = u → p = (u, c2) := by
    intro p hp hp1
    rcases Registry.mem_setClient hp with heq | ⟨hpr1, hne⟩
    · exact heq
    · exact absurd hp1 hne
  have hmem2 : (u, c2) ∈ l2 := Registry.setClient_mem_self r1c u c2
  have hval2 : ∀ p ∈ l2, p.2 ≠ c1 := by
    intro p hp
    rcases Registry.mem_setClient hp with heq | ⟨hpr1, hne⟩
    · rw [heq]
      exact fun h => hc12 h.symm
    · rcases hr1mem p hpr1 with heq1 | ⟨hpr0, _⟩
      · exact absurd (by rw [heq1]) hne
      · exact (hfresh p hpr0).1
  have hmemf : (u, c2) ∈ l2.filter (fun p => env p.2 == wsOPEN) :=
    List.mem_filter.mpr ⟨hmem2, by simpa using hopen⟩
  refine ⟨?_, ?_, ?_, ?_⟩
  · exact Registry.lookupClient_eq_some hmemf
      (fun p hp hp1 => huniq2 p (List.mem_of_mem_filter hp) hp1)
  · intro p hp hp1
    exact huniq2 p (List.mem_of_mem_filter hp) hp1
  · exact ⟨_, Registry.sendAll_mem_of_open hmemf hopen⟩
  · intro q hq
    rcases Registry.mem_sendAll_target hq with ⟨p, hp, he, _⟩
    rw [he]
    exact hval2 p (List.mem_of_mem_filter hp)

/-- Witness for C5: user 1 registers connection 10 then connection 11 in
an all-open environment starting from the empty registry. -/
theorem register_last_wins_witness :
    ((Registry.registerHandler envAllOpen
        (Registry.registerHandler envAllOpen ⟨[], []⟩ 1 10).registry 1 11).registry).lookupClient 1
        = some 11 ∧
      (∃ payload, (11, payload) ∈ (Registry.registerHandler envAllOpen
          (Registry.registerHandler envAllOpen ⟨[], []⟩ 1 10).registry 1 11).sends) := by
  have h := register_last_wins envAllOpen ⟨[], []⟩ 1 10 11
    (by decide) (by decide) (by intro p hp; cases hp) rfl
  exact ⟨h.1, h.2.2.1⟩

/-- **C10** (confirmed).  The delayed close of a superseded connection
unregisters the live one: after `register(u, c1)` then `register(u, c2)`
(so the registry maps `u` to the still-open `c2`), firing `c1`'s close
handler deletes the registry entry for `u`, removes `u` from the
online-set, and broadcasts a presence payload that no longer contains `u`
— and none of the broadcast's sends reaches `c2`, so `u` is reported
offline and unreachable until `c2` re-registers. -/
theorem superseded_close_unregisters_live (env : Nat → Nat) (r0 : Registry)
    (u : Int) (c1 c2 : Nat) (hu : u ≠ 0)
    (hfresh : ∀ p ∈ r0.clients, p.2 ≠ c2)
    (hopen : env c2 = wsOPEN) :
    ((Registry.registerHandler env
        (Registry.registerHandler env r0 u c1).registry u c2).registry).lookupClient u
        = some c2 ∧
      ((Registry.closeHandler env
          (Registry.registerHandler env
            (Registry.registerHandler env r0 u c1).registry u c2).registry u).registry).lookupClient u
        = none ∧
      u ∉ ((Registry.closeHandler env
          (Registry.registerHandler env
            (Registry.registerHandler env r0 u c1).registry u c2).registry u).registry).onlineUsers ∧
      (∀ q ∈ (Registry.closeHandler env
          (Registry.registerHandler env
            (Registry.registerHandler env r0 u c1).registry u c2).registry u).sends,
        q.1 ≠ c2 ∧ u ∉ q.2) := by
  rw [Registry.registerHandler_of_ne env r0 c1 hu]
  rw [Registry.registerHandler_of_ne env _ c2 hu]
  set r1c : List (Int × Nat) :=
    (Registry.setClient r0.clients u c1).filter (fun p => env p.2 == wsOPEN)
    with hr1c
  set l2 : List (Int × Nat) := Registry.setClient r1c u c2 with hl2
  set r2c : List (Int × Nat) := l2.filter (fun p => env p.2 == wsOPEN)
    with hr2c
  have huniq2 : ∀ p ∈ l2, p.1 = u → p = (u, c2) := by
    intro p hp hp1
    rcases Registry.mem_setClient hp with heq | ⟨hpr1, hne⟩
    · exact heq
    · exact absurd hp1 hne
  have hmemf : (u, c2) ∈ r2c :=
    List.mem_filter.mpr ⟨Registry.setClient_mem_self r1c u c2,
      by simpa using hopen⟩
  have hval2 : ∀ p ∈ l2, p.1 ≠ u → p.2 ≠ c2 := by
    intro p hp hne
    rcases Registry.mem_setClient hp with heq | ⟨hpr1, _⟩
    · exact absurd (by rw [heq]) hne
    · rcases Registry.mem_setClient (List.mem_of_mem_filter hpr1) with
        heq1 | ⟨hpr0, _⟩
      · exact absurd (by rw [heq1]) hne
      · exact hfresh p hpr0
  rw [Registry.closeHandler_of_ne env _ hu]
  refine ⟨?_, ?_, ?_, ?_⟩
  · exact Registry.lookupClient_eq_some hmemf
      (fun p hp hp1 => huniq2 p (List.mem_of_mem_filter hp) hp1)
  · refine Registry.lookupClient_eq_none (fun p hp => ?_)
    have hp' := List.mem_of_mem_filter hp
    have := List.of_mem_filter hp'
    simpa using this
  · intro habs
    have h1 := Registry.mem_of_mem_sweepOnline habs
    have := List.of_mem_filter h1
    simp at this
  · intro q hq
    rcases Registry.mem_sendAll_target hq with ⟨p, hp, he, _⟩
    have hpd := List.mem_of_mem_filter hp
    have hpkey : p.1 ≠ u := by simpa using List.of_mem_filter hpd
    have hpl2 : p ∈ l2 := List.mem_of_mem_filter (List.mem_of_mem_filter hpd)
    constructor
    · rw [he]
      exact hval2 p hpl2 hpkey
    · rw [he]
      intro habs
      have := List.of_mem_filter habs
      simp at this

/-- Witness for C10: user 1 on connections 10 then 11 (all open, empty
initial registry); the close of superseded connection 10 leaves user 1
unregistered and offline. -/
theorem superseded_close_witness :
    ((Registry.closeHandler envAllOpen
        (Registry.registerHandler envAllOpen
          (Registry.registerHandler envAllOpen ⟨[], []⟩ 1 10).registry 1 11).registry 1).registry).lookupClient 1
        = none ∧
      (1 : Int) ∉ ((Registry.closeHandler envAllOpen
          (Registry.registerHandler envAllOpen
            (Registry.registerHandler envAllOpen ⟨[], []⟩ 1 10).registry 1 11).registry 1).registry).onlineUsers := by
  have h := superseded_close_unregisters_live envAllOpen ⟨[], []⟩ 1 10 11
    (by decide) (by intro p hp; cases hp) rfl
  exact ⟨h.2.1, h.2.2.1⟩

/-! ## C4: write-through delivered status -/

namespace Storage

/-- `getUser` depends only on the users map. -/
theorem getUser_eq_of_users {s1 s : Storage} (h : s1.users = s.users)
    (i : Int) : s1.getUser i = s.getUser i := by
  unfold getUser
  rw [h]

/-- Updating the status of a freshly appended row rewrites exactly it. -/
theorem updateMessageStatus_append_fresh {s : Storage} {l : List Message}
    {msg : Message} (hs : s.messages = l ++ [msg])
    (hfr : ∀ x ∈ l, x.id ≠ msg.id) (st : MessageStatus) :
    ((s.updateMessageStatus msg.id st).1).messages
      = l ++ [{ msg with status := st }] := by
  have hfind : s.messages.find? (fun m => m.id == msg.id) = some msg := by
    rw [hs, find?_append_left_none _ l _
      (List.find?_eq_none.mpr (fun x hx => by simpa using hfr x hx))]
    simp
  unfold updateMessageStatus
  rw [hfind]
  dsimp only
  rw [hs]
  have hany : ((l ++ [msg]).any
      (fun x => x.id == ({ msg with status := st } : Message).id)) = true :=
    List.any_eq_true.mpr ⟨msg, by simp, by simp⟩
  rw [setMessage, if_pos hany, List.map_append]
  congr 1
  · have hmapid : ∀ x ∈ l,
        (if x.id == ({ msg with status := st } : Message).id
          then ({ msg with status := st } : Message) else x) = x := by
      intro x hx
      exact if_neg (by simpa using hfr x hx)
    rw [List.map_congr_left hmapid, List.map_id']
  · simp

end Storage

/-- When both event users re-resolve, the handler-level conversation
ensure never drops the event, and it leaves the messages map untouched. -/
theorem chatConvStep_some {now : Int} {s1 : Storage} {d : ChatEvent}
    {a b : Int} {fu tu : User}
    (hfu : s1.getUser d.fromUserId = some fu)
    (htu : s1.getUser d.toUserId = some tu) :
    ∃ s2, chatConvStep now s1 d a b = some s2 ∧ s2.messages = s1.messages := by
  unfold chatConvStep
  cases hc : s1.getConversationByUsers (min a b) (max a b) with
  | some conv =>
    exact ⟨_, rfl, Storage.updateConversationLastMessage_messages _ _ _⟩
  | none =>
    rw [hfu, htu]
    exact ⟨_, rfl, rfl⟩

/-- When the recipient has no registry entry, every push the handler emits
is a sender/origin confirmation (carrying the `status: "delivered"` tag);
no plain recipient push exists. -/
theorem chatPushes_tag_true {env : Nat → Nat} {reg1 : Registry}
    {origin : Nat} {aF aT : Int} {delivered : Message}
    (hlook : reg1.lookupClient aT = none) :
    ∀ p ∈ chatPushes env reg1 origin aF aT delivered,
      p.hasStatusTag = true := by
  intro p hp
  unfold chatPushes at hp
  rw [hlook] at hp
  dsimp only at hp
  rw [List.nil_append] at hp
  rcases List.mem_append.mp hp with hps | hpo
  · cases h : reg1.lookupClient aF with
    | none =>
      rw [h] at hps
      cases hps
    | some c =>
      rw [h] at hps
      dsimp only at hps
      by_cases hcond : (env c == wsOPEN && !(c == origin)) = true
      · rw [if_pos hcond] at hps
        rw [List.mem_singleton.mp hps]
      · rw [if_neg hcond] at hps
        cases hps
  · by_cases hcond : (env origin == wsOPEN) = true
    · rw [if_pos hcond] at hpo
      rw [List.mem_singleton.mp hpo]
    · rw [if_neg hcond] at hpo
      cases hpo

/-- Reduction of `handleChatMessage` on an event that passes both guards
and whose handler-level conversation ensure succeeds. -/
theorem handleChatMessage_eq (env : Nat → Nat) (now : Int) (reg : Registry)
    (s : Storage) (origin : Nat) (wsUser : Option Int) (d : ChatEvent)
    (fromUser toUser : User) (s2 : Storage)
    (hf : s.getUser d.fromUserId = some fromUser)
    (ht : s.getUser d.toUserId = some toUser)
    (hne : d.fromUserId ≠ d.toUserId)
    (hs2 : chatConvStep now
        ((Storage.createMessage now s
          { fromUserId := d.fromUserId, toUserId := d.toUserId
            content := d.content, imageData := d.imageData
            status := some .sent }).1) d d.fromUserId d.toUserId = some s2) :
    handleChatMessage env now reg s origin wsUser d =
      { store := (s2.updateMessageStatus
            ((Storage.createMessage now s
              { fromUserId := d.fromUserId, toUserId := d.toUserId
                content := d.content, imageData := d.imageData
                status := some .sent }).2).id .delivered).1
        registry := (chatRegStep env reg origin wsUser d.fromUserId).1
        wsUser := (chatRegStep env reg origin wsUser d.fromUserId).2
        pushes := chatPushes env
          (chatRegStep env reg origin wsUser d.fromUserId).1 origin
          d.fromUserId d.toUserId
          { (Storage.createMessage now s
              { fromUserId := d.fromUserId, toUserId := d.toUserId
                content := d.content, imageData := d.imageData
                status := some .sent }).2
            with status := MessageStatus.delivered } } := by
  have hbe : (d.fromUserId == d.toUserId) = false := by simpa using hne
  have hTo : chatActualTo s d = d.toUserId := by
    unfold chatActualTo
    rw [hbe]
    rfl
  unfold handleChatMessage
  rw [hf, ht]
  dsimp only
  rw [hbe, Bool.false_and, if_neg Bool.false_ne_true, hTo, hs2]

/-- **C4** (confirmed).  For every socket `chat_message` event that passes
the user-resolution and self-send guards (both users resolve and the
sender differs from the recipient), the stored message — created with
status `"sent"` — ends up with status `"delivered"` in the store,
regardless of the registry state: in particular even when the recipient
has no live registry entry, in which case every push the handler emits is
a sender-side confirmation and none addresses the recipient. -/
theorem chat_message_write_through_delivered (env : Nat → Nat) (now : Int)
    (reg : Registry) (s : Storage) (origin : Nat) (wsUser : Option Int)
    (d : ChatEvent) (fromUser toUser : User)
    (hf : s.getUser d.fromUserId = some fromUser)
    (ht : s.getUser d.toUserId = some toUser)
    (hne : d.fromUserId ≠ d.toUserId)
    (hfresh : ∀ m ∈ s.messages, m.id ≠ s.currentMessageId) :
    ((handleChatMessage env now reg s origin wsUser d).store).getMessage
        s.currentMessageId
      = some { id := s.currentMessageId, fromUserId := d.fromUserId
               toUserId := d.toUserId, content := d.content
               imageData := d.imageData, status := .delivered
               sentAt := now } ∧
    ((handleChatMessage env now reg s origin wsUser d).registry.lookupClient
        d.toUserId = none →
      ∀ p ∈ (handleChatMessage env now reg s origin wsUser d).pushes,
        p.hasStatusTag = true) := by
  have hfu1 : ((Storage.createMessage now s
      { fromUserId := d.fromUserId, toUserId := d.toUserId
        content := d.content, imageData := d.imageData
        status := some .sent }).1).getUser d.fromUserId = some fromUser := by
    rw [Storage.getUser_eq_of_users (Storage.createMessage_users now s _) _]
    exact hf
  have htu1 : ((Storage.createMessage now s
      { fromUserId := d.fromUserId, toUserId := d.toUserId
        content := d.content, imageData := d.imageData
        status := some .sent }).1).getUser d.toUserId = some toUser := by
    rw [Storage.getUser_eq_of_users (Storage.createMessage_users now s _) _]
    exact ht
  obtain ⟨s2, hs2eq, hs2m⟩ :=
    @chatConvStep_some now
      ((Storage.createMessage now s
        { fromUserId := d.fromUserId, toUserId := d.toUserId
          content := d.content, imageData := d.imageData
          status := some .sent }).1) d d.fromUserId d.toUserId
      fromUser toUser hfu1 htu1
  rw [handleChatMessage_eq env now reg s origin wsUser d fromUser toUser s2
    hf ht hne hs2eq]
  have hfresh' : ∀ x ∈ s.messages,
      x.id ≠ ((Storage.createMessage now s
        { fromUserId := d.fromUserId, toUserId := d.toUserId
          content := d.content, imageData := d.imageData
          status := some .sent }).2).id := by
    intro x hx
    exact hfresh x hx
  have hs2app : s2.messages = s.messages ++
      [(Storage.createMessage now s
        { fromUserId := d.fromUserId, toUserId := d.toUserId
          content := d.content, imageData := d.imageData
          status := some .sent }).2] := by
    rw [hs2m, Storage.createMessage_messages,
      Storage.setMessage_append_of_fresh hfresh']
  have hupd := Storage.updateMessageStatus_append_fresh hs2app hfresh'
    .delivered
  constructor
  · have hget := Storage.getMessage_append_fresh hupd
      (fun x hx => hfresh x hx)
    exact hget
  · intro hlook p hp
    exact chatPushes_tag_true hlook p hp

/-- Witness for C4: doctor 3 messages patient 2 over a socket with an
empty registry (recipient unregistered); the stored message is
`"delivered"` and the only push is the tagged origin confirmation. -/
theorem chat_message_write_through_witness :
    ((handleChatMessage envAllOpen 9 ⟨[], []⟩ pairStore 10 (some 3)
        ⟨3, 2, "hi", none⟩).store).getMessage pairStore.currentMessageId
      = some { id := 1, fromUserId := 3, toUserId := 2, content := "hi"
               imageData := none, status := .delivered, sentAt := 9 } ∧
    (∀ p ∈ (handleChatMessage envAllOpen 9 ⟨[], []⟩ pairStore 10 (some 3)
        ⟨3, 2, "hi", none⟩).pushes, p.hasStatusTag = true) := by
  have h := chat_message_write_through_delivered envAllOpen 9 ⟨[], []⟩
    pairStore 10 (some 3) ⟨3, 2, "hi", none⟩ ⟨3, .doctor⟩ ⟨2, .patient⟩
    (by decide) (by decide) (by decide) (by intro m hm; cases hm)
  exact ⟨h.1, h.2 (by decide)⟩

end Portal
